import Mathlib

/-!
# Verification of the reqwest HTTP client's retry and backoff engine

Shallow embedding of the Go package `reqwest`: backoff strategies
(`ExponentialBackoff.Delay`, `FixedBackoff.Delay`, `jitter25`), builder
defaulting (`retryConfigBuilder.Build`, `exponentialBackoffBuilder.Build`,
`fixedBackoffBuilder.Build`), the retry predicates (`client.shouldRetry`,
`client.shouldRetryError`), the middleware chain and single-attempt execution
(`client.executeOnce`), and the retry orchestration loop (`client.execute`).

Modelling conventions:
* Go `time.Duration` values are `ℤ` nanoseconds (an `int64` in the
  source).  The `float64` arithmetic of the backoff computations is
  carried exactly over `ℚ` (float rounding abstracted away), but the
  `time.Duration(...)` conversion back from `float64` is modelled
  faithfully to the range of `int64`: truncation toward zero, with an
  out-of-range value mapped to `math.MinInt64` — the behaviour of Go's
  gc compiler on amd64, where the language specification leaves
  out-of-range float-to-integer conversions implementation-dependent.
* `rand.Float64()` is passed in explicitly as a rational `r` with `0 ≤ r < 1`.
* `context.Context` cancellation is modelled by two oracles: `cancelAt k`
  is the result of `contextCancelled(ctx)` at the top of loop iteration `k`,
  and `backoffCancel k` is the outcome of the interruptible wait in
  `applyBackoff` at iteration `k` (`some e` when `ctx.Done()` fires during
  the wait).  The transport is an attempt-indexed function, since the
  network may answer differently on each physical attempt.
* Error values are their message strings; `fmt.Errorf` wrapping is string
  concatenation.  Response `body` and `totalDuration` fields concern I/O
  handles and wall-clock time and are not represented.
-/

namespace Reqwest

/-- Error values, identified with their message text (`err.Error()`). -/
abbrev Err := String

/-! ## Backoff strategies (Go file with `ExponentialBackoff`, `FixedBackoff`) -/

/-- Go constant `DefaultMaxRetries = 3`. -/
def DefaultMaxRetries : Int := 3

/-- Go constant `DefaultJitterPercent = 0.25`. -/
def DefaultJitterPercent : ℚ := 1/4

/-- Go constant `JitterCenterPoint = 0.5`. -/
def JitterCenterPoint : ℚ := 1/2

/-- Go constant `JitterMultiplier = 2.0`. -/
def JitterMultiplier : ℚ := 2

/-- Go constant `DefaultExponentialBaseDelay = 100 * time.Millisecond`,
in nanoseconds. -/
def DefaultExponentialBaseDelay : ℤ := 100000000

/-- Go constant `DefaultExponentialMultiplier = 2.0`. -/
def DefaultExponentialMultiplier : ℚ := 2

/-- Go constant `DefaultExponentialMaxDelay = 10 * time.Second`, in
nanoseconds. -/
def DefaultExponentialMaxDelay : ℤ := 10000000000

/-- Go constant `DefaultFixedBackoffDelay = 1 * time.Second`, in
nanoseconds. -/
def DefaultFixedBackoffDelay : ℤ := 1000000000

/-- `math.MinInt64`. -/
def i64min : ℤ := -9223372036854775808

/-- `math.MaxInt64`. -/
def i64max : ℤ := 9223372036854775807

/-- Truncation toward zero, the rounding used by Go float-to-integer
conversions. -/
def f64trunc (x : ℚ) : ℤ := if x < 0 then ⌈x⌉ else ⌊x⌋

/-- The conversion `time.Duration(x)` for a `float64` value `x`, with the
gc/amd64 semantics: truncate toward zero; a result that does not fit in
`int64` (the Go specification leaves it implementation-dependent) becomes
`math.MinInt64`, the value the amd64 CVTTSD2SI instruction produces. -/
def f64toInt64 (x : ℚ) : ℤ :=
  if f64trunc x < i64min ∨ i64max < f64trunc x then i64min else f64trunc x

/-- Go `jitter25(delay)`: `window := float64(delay) * DefaultJitterPercent;
return (rand.Float64() - JitterCenterPoint) * JitterMultiplier * window`.
The random draw `r` (Go `rand.Float64()`, in `[0,1)`) is explicit. -/
def jitter25 (r delay : ℚ) : ℚ :=
  (r - JitterCenterPoint) * JitterMultiplier * (delay * DefaultJitterPercent)

/-- Go struct `ExponentialBackoff` (`baseDelay`, `maxDelay` are
`time.Duration`, `multiplier` a `float64`). -/
structure ExponentialBackoff where
  baseDelay : ℤ
  multiplier : ℚ
  maxDelay : ℤ
  jitter : Bool
deriving Repr, DecidableEq

/-- Go `(e *ExponentialBackoff) Delay(count int)`: raise the multiplier to
`count` (`math.Pow`), scale the base delay in `float64` and convert back
to a `time.Duration`, cap at `maxDelay`, then optionally jitter (another
`float64` round trip), clamping a negative jittered value back to
`baseDelay`. `r` is the random draw consumed by `jitter25` on this call. -/
def ExponentialBackoff.Delay (e : ExponentialBackoff) (count : Nat) (r : ℚ) : ℤ :=
  let multiplier := e.multiplier ^ count
  let delay0 := f64toInt64 ((e.baseDelay : ℚ) * multiplier)
  let delay1 := if delay0 > e.maxDelay then e.maxDelay else delay0
  if e.jitter then
    let delay2 := f64toInt64 ((delay1 : ℚ) + jitter25 r (delay1 : ℚ))
    if delay2 < 0 then e.baseDelay else delay2
  else
    delay1

/-- Go struct `FixedBackoff`. -/
structure FixedBackoff where
  delay : ℤ
  jitter : Bool
deriving Repr, DecidableEq

/-- Go `(f *FixedBackoff) Delay(count int)`: return the fixed delay,
optionally jittered (a `float64` round trip through `time.Duration`),
clamping a negative jittered value back to the fixed delay.  The attempt
count is ignored by the source as well. -/
def FixedBackoff.Delay (f : FixedBackoff) (_count : Nat) (r : ℚ) : ℤ :=
  let delay := f.delay
  if f.jitter then
    let delay2 := f64toInt64 ((delay : ℚ) + jitter25 r (delay : ℚ))
    if delay2 < 0 then f.delay else delay2
  else
    delay

/-- The closed set of Go types implementing the `BackoffStrategy`
interface. -/
inductive BackoffStrategy where
  | exponential (e : ExponentialBackoff)
  | fixed (f : FixedBackoff)
deriving Repr, DecidableEq

/-- Interface dispatch of `Delay(count)` over the two implementations. -/
def BackoffStrategy.Delay : BackoffStrategy → Nat → ℚ → ℤ
  | .exponential e, count, r => e.Delay count r
  | .fixed f, count, r => f.Delay count r

/-- Go `(b *exponentialBackoffBuilder) Build()`: replace nonpositive
fields by the documented defaults. -/
def exponentialBackoffBuilderBuild (b : ExponentialBackoff) : ExponentialBackoff :=
  let b := if b.baseDelay ≤ 0 then { b with baseDelay := DefaultExponentialBaseDelay } else b
  let b := if b.multiplier ≤ 0 then { b with multiplier := DefaultExponentialMultiplier } else b
  if b.maxDelay ≤ 0 then { b with maxDelay := DefaultExponentialMaxDelay } else b

/-- Go `NewExponentialBackoffBuilder()`: zero-valued `ExponentialBackoff`. -/
def newExponentialBackoff : ExponentialBackoff := ⟨0, 0, 0, false⟩

/-- Go `(b *fixedBackoffBuilder) Build()`: replace a nonpositive delay by
the documented default. -/
def fixedBackoffBuilderBuild (b : FixedBackoff) : FixedBackoff :=
  if b.delay ≤ 0 then { b with delay := DefaultFixedBackoffDelay } else b

/-! ## Retry configuration and its builder -/

/-- Go `DefaultRetryableStatusCodes = []int{429, 500, 502, 503, 504}`. -/
def DefaultRetryableStatusCodes : List Int := [429, 500, 502, 503, 504]

/-- Keys of Go `DefaultRetryableErrors` (a `map[string]bool`; only the key
set is ever consulted by `shouldRetryError`). -/
def DefaultRetryableErrors : List String :=
  ["connection refused", "timeout", "temporary failure", "no such host"]

/-- Go struct `RetryConfig`.  `backoffStrategy` is an interface value and
may be `nil` before `Build` runs, hence `Option`.  `retryableError` is the
key set of the Go map. -/
structure RetryConfig where
  maxRetries : Int
  retryableStatusCodes : List Int
  retryableError : List String
  backoffStrategy : Option BackoffStrategy
deriving Repr, DecidableEq

/-- Go `NewRetryConfigBuilder()`: builder holding a zero-valued
`RetryConfig` (`maxRetries = 0`, nil slice, nil map, nil strategy). -/
def newRetryConfig : RetryConfig := ⟨0, [], [], none⟩

/-- Go `(r *retryConfigBuilder) Build()`: fill degenerate fields with the
documented defaults (3 retries, default exponential backoff, common
retryable codes, common network-error strings). -/
def retryConfigBuilderBuild (c : RetryConfig) : RetryConfig :=
  let c := if c.maxRetries ≤ 0 then { c with maxRetries := DefaultMaxRetries } else c
  let defaultStrategy : BackoffStrategy :=
    .exponential (exponentialBackoffBuilderBuild newExponentialBackoff)
  let c := if c.backoffStrategy = none then
      { c with backoffStrategy := some defaultStrategy } else c
  let c := if c.retryableStatusCodes = [] then
      { c with retryableStatusCodes := DefaultRetryableStatusCodes } else c
  if c.retryableError = [] then
    { c with retryableError := DefaultRetryableErrors } else c

/-! ## String helpers (Go `strings.ToLower`, `strings.Contains`) -/

/-- Go `strings.ToLower`, character by character. -/
def strToLower (s : String) : String := ⟨s.data.map Char.toLower⟩

/-- Substring containment on character lists: some suffix of `hay` starts
with `needle`. -/
def listContainsSub (hay needle : List Char) : Bool :=
  hay.tails.any (fun t => needle.isPrefixOf t)

/-- Go `strings.Contains(s, pat)`. -/
def strContainsSub (s pat : String) : Bool := listContainsSub s.data pat.data

/-! ## Responses, requests, middleware, single-attempt execution -/

/-- Go struct `Response` (the `body` handle and `totalDuration` are I/O and
wall-clock state, not represented). -/
structure Response where
  statusCode : Int
  retryAttempts : Nat
deriving Repr, DecidableEq

/-- Go `http.Response` as far as the engine reads it. -/
structure HTTPResp where
  statusCode : Int
deriving Repr, DecidableEq

/-- Go `fromHTTPResponse`: copies the status code; `retryAttempts` is the
zero value until `execute` overwrites it. -/
def fromHTTPResponse (h : HTTPResp) : Response := ⟨h.statusCode, 0⟩

/-- The request representation middleware can read and mutate.  Go mutates
`*http.Request` in place; here a middleware returns the updated request. -/
structure Request where
  url : String
  method : String
  body : Option String
deriving Repr, DecidableEq

/-- Go `type Middleware`: a function taking the in-flight request and
either mutating it (returning the new state) or aborting with an error. -/
abbrev Middleware := Request → Except Err Request

/-- The middleware loop of Go `executeOnce`: apply each middleware in
order, stopping at the first error. -/
def applyMiddlewares : List Middleware → Request → Except Err Request
  | [], req => .ok req
  | m :: rest, req =>
    match m req with
    | .error e => .error e
    | .ok req2 => applyMiddlewares rest req2

/-- Result of Go `executeOnce`: exactly one of response / error is set. -/
inductive OnceResult where
  | ok (r : Response)
  | err (e : Err)
deriving Repr, DecidableEq

/-- Go `strings.TrimLeft(url, "/")`. -/
def trimLeftSlash (s : String) : String := ⟨s.data.dropWhile (fun ch => ch = '/')⟩

/-- Go struct `client` (the transport handle `httpClient` is passed to
`execute` explicitly as a function). -/
structure ClientS where
  baseURL : String
  middlewares : List Middleware
  retryConfig : Option RetryConfig

/-- Go `(c *client) buildURL(url)`. -/
def ClientS.buildURL (c : ClientS) (url : String) : String :=
  if c.baseURL = "" then url
  else if url.startsWith "https://" || url.startsWith "http://" then url
  else c.baseURL ++ "/" ++ trimLeftSlash url

/-- Go `(c *client) executeOnce(ctx, url, method, body)`: build the full
URL and request, run the middleware chain (first error aborts, wrapped as
`middleware error: …`), then perform the transport exchange (`httpClient.Do`,
passed in as `transport`; its error wrapped as `failed to do http request:
…`), and convert a completed exchange with `fromHTTPResponse`. -/
def ClientS.executeOnce (c : ClientS) (transport : Request → Except Err HTTPResp)
    (url method : String) (body : Option String) : OnceResult :=
  let req : Request := ⟨c.buildURL url, method, body⟩
  match applyMiddlewares c.middlewares req with
  | .error e => .err ("middleware error: " ++ e)
  | .ok req2 =>
    match transport req2 with
    | .error e => .err ("failed to do http request: " ++ e)
    | .ok h => .ok (fromHTTPResponse h)

/-! ## Retry predicates (Go `shouldRetry`, `shouldRetryError`) -/

/-- Go `(c *client) shouldRetry(resp)`: false without a retry config or a
response; otherwise true iff the status code equals one of the configured
retryable codes. -/
def shouldRetry (cfg : Option RetryConfig) (resp : Option Response) : Bool :=
  match cfg, resp with
  | none, _ => false
  | _, none => false
  | some c, some r =>
    c.retryableStatusCodes.any (fun code => r.statusCode = code)

/-- Go `(c *client) shouldRetryError(err)`: false without a retry config or
an error; otherwise true iff the lower-cased error message contains one of
the configured error signatures (map keys) as a substring. -/
def shouldRetryError (cfg : Option RetryConfig) (err : Option Err) : Bool :=
  match cfg, err with
  | none, _ => false
  | _, none => false
  | some c, some e =>
    c.retryableError.any (fun sig => strContainsSub (strToLower e) sig)

/-! ## The retry orchestration loop (Go `client.execute`) -/

/-- Observable outcome of one logical call: the number of physical
attempts performed (calls to `executeOnce`), the returned response, and
the returned error. -/
structure ExecResult where
  attempts : Nat
  resp : Option Response
  err : Option Err
deriving Repr, DecidableEq

/-- The code after Go `execute`'s loop: if the last attempt produced a
response, stamp `retryAttempts = maxAttempts - 1` and return it together
with the last error; otherwise return the last error alone. -/
def finishExec (maxAttempts done : Nat) (lastResp : Option Response)
    (lastErr : Option Err) : ExecResult :=
  match lastResp with
  | some r => ⟨done, some { r with retryAttempts := maxAttempts - 1 }, lastErr⟩
  | none => ⟨done, none, lastErr⟩

/-- Go `execute`'s `for attempt := 0; attempt < maxAttempts; attempt++`
loop.  `fuel = maxAttempts - attempt` counts the remaining iterations,
`done` the attempts performed so far, `lastResp`/`lastErr` the `resp` and
`lastErr` variables carried across iterations.  Each iteration checks the
cancellation oracle (`contextCancelled`), then the interruptible backoff
wait (`applyBackoff`, active only when `attempt > 0` and a retry config is
present), performs one attempt via `outcome`, and applies the source's
success / continue / break conditions verbatim. -/
def executeLoop (cfg : Option RetryConfig) (cancelAt backoffCancel : Nat → Option Err)
    (outcome : Nat → OnceResult) (maxAttempts : Nat) :
    Nat → Nat → Nat → Option Response → Option Err → ExecResult
  | 0, _attempt, done, lastResp, lastErr => finishExec maxAttempts done lastResp lastErr
  | fuel + 1, attempt, done, _lastResp, _lastErr =>
    match cancelAt attempt with
    | some e => ⟨done, none, some e⟩
    | none =>
      match (if 0 < attempt then (if cfg.isSome then backoffCancel attempt else none) else none) with
      | some e => ⟨done, none, some e⟩
      | none =>
        match outcome attempt with
        | .ok r =>
          -- resp, lastErr = (some r, none): `lastErr == nil` holds.
          if shouldRetry cfg (some r) = false then
            ⟨done + 1, some { r with retryAttempts := attempt }, none⟩
          else if attempt < maxAttempts - 1 ∧
              (shouldRetryError cfg none = true ∨ shouldRetry cfg (some r) = true) then
            executeLoop cfg cancelAt backoffCancel outcome maxAttempts fuel
              (attempt + 1) (done + 1) (some r) none
          else
            finishExec maxAttempts (done + 1) (some r) none
        | .err e =>
          -- resp, lastErr = (none, some e): the success test fails.
          if attempt < maxAttempts - 1 ∧
              (shouldRetryError cfg (some e) = true ∨ shouldRetry cfg none = true) then
            executeLoop cfg cancelAt backoffCancel outcome maxAttempts fuel
              (attempt + 1) (done + 1) none (some e)
          else
            finishExec maxAttempts (done + 1) none (some e)

/-- The body buffering of Go `execute` combined with
`bodyReaderFromByteSlice`: the body is read into a byte buffer once up
front, and an empty buffer is handed to each attempt as a nil reader, so
an empty body behaves like no body. -/
def bodyBytesOf : Option String → Option String
  | none => none
  | some s => if s = "" then none else some s

/-- Go `(c *client) execute(ctx, url, method, body)`.  `maxAttempts` is 1
without a retry config and `maxRetries + 1` with one (`Int.toNat` reflects
that a nonpositive Go `maxAttempts` makes the loop run zero times). -/
def ClientS.execute (c : ClientS) (cancelAt backoffCancel : Nat → Option Err)
    (transport : Nat → Request → Except Err HTTPResp)
    (url method : String) (body : Option String) : ExecResult :=
  let maxAttempts : Nat :=
    match c.retryConfig with
    | none => 1
    | some rc => (rc.maxRetries + 1).toNat
  executeLoop c.retryConfig cancelAt backoffCancel
    (fun k => c.executeOnce (transport k) url method (bodyBytesOf body))
    maxAttempts maxAttempts 0 0 none none

/-! ## Specification-side helpers and general lemmas -/

/-- The pre-jitter delay of a strategy at a given attempt: the converted
and capped exponential value, or the fixed delay. -/
def BackoffStrategy.preDelay : BackoffStrategy → Nat → ℤ
  | .exponential e, count =>
    if f64toInt64 ((e.baseDelay : ℚ) * e.multiplier ^ count) > e.maxDelay then e.maxDelay
    else f64toInt64 ((e.baseDelay : ℚ) * e.multiplier ^ count)
  | .fixed f, _ => f.delay

/-- The un-jittered base delay a negative jittered value is clamped to. -/
def BackoffStrategy.baseOf : BackoffStrategy → ℤ
  | .exponential e => e.baseDelay
  | .fixed f => f.delay

/-- Whether the strategy has jitter enabled. -/
def BackoffStrategy.jitterEnabled : BackoffStrategy → Bool
  | .exponential e => e.jitter
  | .fixed f => f.jitter

/-- The data-model invariant of §3 of the specification: backoff
configuration fields are positive (the builders establish this). -/
def strategyValid : BackoffStrategy → Prop
  | .exponential e => 0 < e.baseDelay ∧ 0 < e.multiplier ∧ 0 < e.maxDelay
  | .fixed f => 0 < f.delay

/-- One unfolding step of the attempt loop, as a rewriting equation. -/
theorem executeLoop_succ (cfg : Option RetryConfig)
    (cancelAt backoffCancel : Nat → Option Err) (outcome : Nat → OnceResult)
    (maxAttempts fuel attempt done : Nat) (lastResp : Option Response)
    (lastErr : Option Err) :
    executeLoop cfg cancelAt backoffCancel outcome maxAttempts (fuel + 1)
        attempt done lastResp lastErr =
      match cancelAt attempt with
      | some e => ⟨done, none, some e⟩
      | none =>
        match (if 0 < attempt then (if cfg.isSome then backoffCancel attempt else none) else none) with
        | some e => ⟨done, none, some e⟩
        | none =>
          match outcome attempt with
          | .ok r =>
            if shouldRetry cfg (some r) = false then
              ⟨done + 1, some { r with retryAttempts := attempt }, none⟩
            else if attempt < maxAttempts - 1 ∧
                (shouldRetryError cfg none = true ∨ shouldRetry cfg (some r) = true) then
              executeLoop cfg cancelAt backoffCancel outcome maxAttempts fuel
                (attempt + 1) (done + 1) (some r) none
            else
              finishExec maxAttempts (done + 1) (some r) none
          | .err e =>
            if attempt < maxAttempts - 1 ∧
                (shouldRetryError cfg (some e) = true ∨ shouldRetry cfg none = true) then
              executeLoop cfg cancelAt backoffCancel outcome maxAttempts fuel
                (attempt + 1) (done + 1) none (some e)
            else
              finishExec maxAttempts (done + 1) none (some e) := rfl

/-- A single attempt whose middleware chain passes and whose transport
completes yields the converted response. -/
theorem executeOnce_ok (c : ClientS) (transport : Request → Except Err HTTPResp)
    (url method : String) (body : Option String) (h : HTTPResp)
    (hmw : ∀ req, ∃ req2, applyMiddlewares c.middlewares req = .ok req2)
    (htr : ∀ req, transport req = .ok h) :
    c.executeOnce transport url method body = .ok (fromHTTPResponse h) := by
  simp only [ClientS.executeOnce]
  obtain ⟨req2, hr⟩ := hmw ⟨c.buildURL url, method, body⟩
  rw [hr]
  simp only [htr]

/-- A status code in the configured retryable set triggers a retry. -/
theorem shouldRetry_of_mem (rc : RetryConfig) (r : Response)
    (h : r.statusCode ∈ rc.retryableStatusCodes) :
    shouldRetry (some rc) (some r) = true := by
  simp only [shouldRetry, List.any_eq_true, decide_eq_true_eq]
  exact ⟨r.statusCode, h, rfl⟩

/-- A status code outside the configured retryable set does not. -/
theorem shouldRetry_of_not_mem (rc : RetryConfig) (r : Response)
    (h : r.statusCode ∉ rc.retryableStatusCodes) :
    shouldRetry (some rc) (some r) = false := by
  simp only [shouldRetry, List.any_eq_false, decide_eq_true_eq]
  intro code hc he
  exact h (he ▸ hc)

/-- Attempt-loop invariant for a logical call every attempt of which
completes with a retryable status: the loop runs to exhaustion, keeps the
last response with a nil error, and stamps `retryAttempts` with
`maxAttempts - 1`. -/
theorem executeLoop_all_retryable (cfg : Option RetryConfig)
    (outcome : Nat → OnceResult) (respOf : Nat → Response) (maxAttempts : Nat)
    (hout : ∀ k, outcome k = .ok (respOf k))
    (hretry : ∀ k, shouldRetry cfg (some (respOf k)) = true) :
    ∀ fuel attempt done lastResp lastErr, attempt + fuel = maxAttempts → 0 < fuel →
      executeLoop cfg (fun _ => none) (fun _ => none) outcome maxAttempts fuel
          attempt done lastResp lastErr
        = ⟨done + fuel,
            some { respOf (maxAttempts - 1) with retryAttempts := maxAttempts - 1 },
            none⟩ := by
  intro fuel
  induction fuel with
  | zero => intro attempt done lastResp lastErr _ h0; exact absurd h0 (by omega)
  | succ f ih =>
    intro attempt done lastResp lastErr hsum _
    rw [executeLoop_succ]
    simp only [ite_self, hout attempt]
    rw [if_neg (by simp [hretry attempt])]
    cases f with
    | zero =>
      have hlast : attempt = maxAttempts - 1 := by omega
      have hnot : ¬ (attempt < maxAttempts - 1 ∧
          (shouldRetryError cfg none = true ∨ shouldRetry cfg (some (respOf attempt)) = true)) := by
        intro hcontra
        obtain ⟨h1, _⟩ := hcontra
        omega
      rw [if_neg hnot]
      simp [finishExec, hlast]
    | succ f2 =>
      have hcond : attempt < maxAttempts - 1 ∧
          (shouldRetryError cfg none = true ∨ shouldRetry cfg (some (respOf attempt)) = true) := by
        exact ⟨by omega, Or.inr (hretry attempt)⟩
      rw [if_pos hcond]
      rw [ih (attempt + 1) (done + 1) (some (respOf attempt)) none (by omega) (by omega)]
      have : done + 1 + (f2 + 1) = done + (f2 + 1 + 1) := by omega
      rw [this]

/-- A first attempt whose response does not trigger a retry returns it at
once with `retryAttempts = 0`, whatever `maxAttempts` remains. -/
theorem executeLoop_first_success (cfg : Option RetryConfig)
    (cancelAt backoffCancel : Nat → Option Err) (outcome : Nat → OnceResult)
    (maxAttempts fuel : Nat) (r : Response)
    (hcan : cancelAt 0 = none) (hout : outcome 0 = .ok r)
    (hfalse : shouldRetry cfg (some r) = false) :
    executeLoop cfg cancelAt backoffCancel outcome maxAttempts (fuel + 1) 0 0 none none
      = ⟨1, some { r with retryAttempts := 0 }, none⟩ := by
  rw [executeLoop_succ]
  simp [hcan, hout, hfalse]

/-! ## The claims -/

/-- Claim C1: against a transport that returns a retryable status code on
every attempt, with a retry configuration whose `maxRetries` is `n` (so
`maxAttempts = n + 1`), `execute` performs exactly `n + 1` physical
attempts, returns the last attempt's response with its failing status code
and a nil error, and the returned response reports
`retryAttempts = maxAttempts - 1 = n`. -/
theorem retry_exhaustion_returns_last_response (c : ClientS) (rc : RetryConfig)
    (n : Nat) (transport : Nat → Request → Except Err HTTPResp) (status : Nat → Int)
    (url method : String) (body : Option String)
    (hrc : c.retryConfig = some rc) (hn : rc.maxRetries = (n : Int))
    (hmw : ∀ req, ∃ req2, applyMiddlewares c.middlewares req = .ok req2)
    (htr : ∀ k req, transport k req = .ok ⟨status k⟩)
    (hst : ∀ k, status k ∈ rc.retryableStatusCodes) :
    c.execute (fun _ => none) (fun _ => none) transport url method body
      = ⟨n + 1, some ⟨status n, n⟩, none⟩ := by
  simp only [ClientS.execute, hrc]
  have hmax : ((rc.maxRetries + 1).toNat) = n + 1 := by rw [hn]; omega
  rw [hmax]
  have hloop := executeLoop_all_retryable (some rc)
    (fun k => c.executeOnce (transport k) url method (bodyBytesOf body))
    (fun k => ⟨status k, 0⟩) (n + 1)
    (fun k => executeOnce_ok c (transport k) url method (bodyBytesOf body)
      ⟨status k⟩ hmw (htr k))
    (fun k => shouldRetry_of_mem rc ⟨status k, 0⟩ (hst k))
    (n + 1) 0 0 none none (by omega) (by omega)
  rw [hloop]
  simp

/-- Concrete instance of C1: two retries against a server that always
answers 500 perform three attempts and report two retries. -/
theorem retry_exhaustion_returns_last_response_witness :
    (ClientS.mk "" [] (some ⟨2, [500], ["timeout"], none⟩)).execute
      (fun _ => none) (fun _ => none) (fun _ _ => .ok ⟨500⟩) "u" "GET" none
      = ⟨3, some ⟨500, 2⟩, none⟩ :=
  retry_exhaustion_returns_last_response _ ⟨2, [500], ["timeout"], none⟩ 2 _
    (fun _ => 500) "u" "GET" none rfl rfl (fun req => ⟨req, rfl⟩)
    (fun _ _ => rfl) (fun _ => by simp)

/-- Claim C2: without a retry configuration a logical call performs
exactly one physical attempt regardless of the response status or
transport error: a completed exchange is returned as success with
`retryAttempts = 0` even when its status code would otherwise be
retryable, and an attempt error is returned immediately without retry. -/
theorem no_retry_config_single_attempt (c : ClientS)
    (cancelAt backoffCancel : Nat → Option Err)
    (transport : Nat → Request → Except Err HTTPResp)
    (url method : String) (body : Option String)
    (hc : c.retryConfig = none) (hcan : cancelAt 0 = none) :
    (c.execute cancelAt backoffCancel transport url method body).attempts = 1 ∧
    (∀ r, c.executeOnce (transport 0) url method (bodyBytesOf body) = .ok r →
      c.execute cancelAt backoffCancel transport url method body
        = ⟨1, some { r with retryAttempts := 0 }, none⟩) ∧
    (∀ e, c.executeOnce (transport 0) url method (bodyBytesOf body) = .err e →
      c.execute cancelAt backoffCancel transport url method body
        = ⟨1, none, some e⟩) := by
  have hstep : ∀ res, c.executeOnce (transport 0) url method (bodyBytesOf body) = res →
      c.execute cancelAt backoffCancel transport url method body =
        match res with
        | .ok r => ⟨1, some { r with retryAttempts := 0 }, none⟩
        | .err e => ⟨1, none, some e⟩ := by
    intro res hres
    simp only [ClientS.execute, hc]
    rw [executeLoop_succ]
    simp only [hcan, hres]
    cases res with
    | ok r => simp [show shouldRetry none (some r) = false from rfl]
    | err e => simp [finishExec]
  refine ⟨?_, ?_, ?_⟩
  · cases hres : c.executeOnce (transport 0) url method (bodyBytesOf body) with
    | ok r => simp [hstep _ hres]
    | err e => simp [hstep _ hres]
  · intro r hres
    exact hstep _ hres
  · intro e hres
    exact hstep _ hres

/-- Concrete instance of C2: with no retry configuration a retryable 500
is still returned after a single attempt with no retries. -/
theorem no_retry_config_single_attempt_witness :
    (ClientS.mk "" [] none).execute (fun _ => none) (fun _ => none)
      (fun _ _ => .ok ⟨500⟩) "u" "GET" none = ⟨1, some ⟨500, 0⟩, none⟩ :=
  (no_retry_config_single_attempt _ _ _ _ "u" "GET" none rfl rfl).2.1 ⟨500, 0⟩ (by decide)

/-- Claim C5: a first attempt that completes with a status code outside
the retryable set is returned as success (nil error) after exactly one
physical attempt with `retryAttempts = 0`, whatever the retry
configuration. -/
theorem non_retryable_status_single_attempt (c : ClientS)
    (cancelAt backoffCancel : Nat → Option Err)
    (transport : Nat → Request → Except Err HTTPResp) (s : Int)
    (url method : String) (body : Option String)
    (hcan : cancelAt 0 = none)
    (hnn : ∀ rc, c.retryConfig = some rc → 0 ≤ rc.maxRetries)
    (hmw : ∀ req, ∃ req2, applyMiddlewares c.middlewares req = .ok req2)
    (htr : ∀ req, transport 0 req = .ok ⟨s⟩)
    (hs : ∀ rc, c.retryConfig = some rc → s ∉ rc.retryableStatusCodes) :
    c.execute cancelAt backoffCancel transport url method body
      = ⟨1, some ⟨s, 0⟩, none⟩ := by
  have hout : c.executeOnce (transport 0) url method (bodyBytesOf body) = .ok ⟨s, 0⟩ :=
    executeOnce_ok c (transport 0) url method (bodyBytesOf body) ⟨s⟩ hmw htr
  have hfalse : shouldRetry c.retryConfig (some ⟨s, 0⟩) = false := by
    cases hcfg : c.retryConfig with
    | none => rfl
    | some rc => exact shouldRetry_of_not_mem rc ⟨s, 0⟩ (hs rc hcfg)
  cases hcfg : c.retryConfig with
  | none =>
    simp only [ClientS.execute, hcfg]
    exact executeLoop_first_success none cancelAt backoffCancel _ 1 0 ⟨s, 0⟩ hcan hout
      (hcfg ▸ hfalse)
  | some rc =>
    have h0 : 0 ≤ rc.maxRetries := hnn rc hcfg
    have hmax : (rc.maxRetries + 1).toNat = rc.maxRetries.toNat + 1 := by omega
    simp only [ClientS.execute, hcfg]
    rw [hmax]
    exact executeLoop_first_success (some rc) cancelAt backoffCancel _ _
      rc.maxRetries.toNat ⟨s, 0⟩ hcan hout (hcfg ▸ hfalse)

/-- Concrete instance of C5: a 404 against a client whose configuration
retries only 500 completes in one attempt with no retries. -/
theorem non_retryable_status_single_attempt_witness :
    (ClientS.mk "" [] (some ⟨2, [500], ["timeout"], none⟩)).execute
      (fun _ => none) (fun _ => none) (fun _ _ => .ok ⟨404⟩) "u" "GET" none
      = ⟨1, some ⟨404, 0⟩, none⟩ :=
  non_retryable_status_single_attempt _ _ _ _ 404 "u" "GET" none rfl
    (fun rc h => by cases h; decide) (fun req => ⟨req, rfl⟩) (fun _ => rfl)
    (fun rc h => by cases h; decide)

/-- Claim C6: a cancellation signal that has already fired at the start of
a loop iteration (the first one included) stops `execute` immediately:
the context's own error is returned with a nil response, no further
attempt is performed and no backoff wait happens. -/
theorem cancelled_context_stops_immediately (cfg : Option RetryConfig)
    (cancelAt backoffCancel : Nat → Option Err) (outcome : Nat → OnceResult) (e : Err) :
    (∀ maxAttempts fuel attempt done lastResp lastErr, cancelAt attempt = some e →
      executeLoop cfg cancelAt backoffCancel outcome maxAttempts (fuel + 1) attempt
          done lastResp lastErr = ⟨done, none, some e⟩) ∧
    (∀ (c : ClientS) (transport : Nat → Request → Except Err HTTPResp) url method body,
      c.retryConfig = cfg → cancelAt 0 = some e →
      (∀ rc, cfg = some rc → 0 ≤ rc.maxRetries) →
      c.execute cancelAt backoffCancel transport url method body = ⟨0, none, some e⟩) := by
  have hloop : ∀ maxAttempts fuel attempt done lastResp lastErr, cancelAt attempt = some e →
      executeLoop cfg cancelAt backoffCancel outcome maxAttempts (fuel + 1) attempt
          done lastResp lastErr = ⟨done, none, some e⟩ := by
    intro maxAttempts fuel attempt done lastResp lastErr hc
    rw [executeLoop_succ]
    simp only [hc]
  refine ⟨hloop, ?_⟩
  intro c transport url method body hceq hcan hnn
  cases cfg with
  | none =>
    simp only [ClientS.execute, hceq]
    exact (executeLoop_succ none cancelAt backoffCancel _ 1 0 0 0 none none).trans
      (by simp only [hcan])
  | some rc =>
    have h0 : 0 ≤ rc.maxRetries := hnn rc rfl
    have hmax : (rc.maxRetries + 1).toNat = rc.maxRetries.toNat + 1 := by omega
    simp only [ClientS.execute, hceq]
    rw [hmax]
    exact (executeLoop_succ (some rc) cancelAt backoffCancel _ _ rc.maxRetries.toNat
      0 0 none none).trans (by simp only [hcan])

/-- Concrete instance of C6: a context already cancelled before the first
attempt aborts the call with zero attempts. -/
theorem cancelled_context_stops_immediately_witness :
    (ClientS.mk "" [] none).execute (fun _ => some "context canceled") (fun _ => none)
      (fun _ _ => .ok ⟨200⟩) "u" "GET" none = ⟨0, none, some "context canceled"⟩ :=
  (cancelled_context_stops_immediately none (fun _ => some "context canceled")
      (fun _ => none)
      (fun k => (ClientS.mk "" [] none).executeOnce ((fun _ _ => Except.ok ⟨200⟩) k) "u" "GET"
        (bodyBytesOf none))
      "context canceled").2
    (ClientS.mk "" [] none) (fun _ _ => .ok ⟨200⟩) "u" "GET" none rfl rfl
    (fun rc h => by cases h)

/-- Values whose truncation fits in `int64` convert by plain truncation. -/
theorem f64toInt64_in_range (x : ℚ) (hlo : i64min ≤ f64trunc x)
    (hhi : f64trunc x ≤ i64max) : f64toInt64 x = f64trunc x := by
  unfold f64toInt64
  rw [if_neg]
  push_neg
  exact ⟨hlo, hhi⟩

/-- A nonnegative value truncates to a nonnegative integer. -/
theorem f64trunc_nonneg (x : ℚ) (hx : 0 ≤ x) : 0 ≤ f64trunc x := by
  unfold f64trunc
  rw [if_neg (not_lt.mpr hx)]
  exact Int.floor_nonneg.mpr hx

/-- At the default exponential configuration and attempt 37 the scaled
product `100ms * 2 ^ 37` exceeds `int64`, so the duration conversion
yields `math.MinInt64`, which then bypasses the `maxDelay` cap. -/
theorem default_exponential_delay_at_37 :
    ExponentialBackoff.Delay ⟨100000000, 2, 10000000000, false⟩ 37 0 = i64min := by
  have hprod : ((100000000 : ℤ) : ℚ) * (2 : ℚ) ^ 37
      = ((13743895347200000000 : ℤ) : ℚ) := by norm_num
  simp only [ExponentialBackoff.Delay, f64toInt64, f64trunc, hprod]
  norm_num [Int.floor_intCast, i64min, i64max]

/-- Claim C3 (amended): for every `ExponentialBackoff` with jitter
disabled and every attempt at which the truncated scaled product fits in
`int64`, `Delay(attempt)` equals
`min(trunc(baseDelay * multiplier ^ attempt), maxDelay)`. -/
theorem exponential_delay_min_in_int64_range (e : ExponentialBackoff)
    (he : e.jitter = false) (count : Nat) (r : ℚ)
    (hlo : i64min ≤ f64trunc ((e.baseDelay : ℚ) * e.multiplier ^ count))
    (hhi : f64trunc ((e.baseDelay : ℚ) * e.multiplier ^ count) ≤ i64max) :
    e.Delay count r
      = min (f64trunc ((e.baseDelay : ℚ) * e.multiplier ^ count)) e.maxDelay := by
  simp only [ExponentialBackoff.Delay, he, Bool.false_eq_true, if_false,
    f64toInt64_in_range _ hlo hhi]
  split_ifs with h
  · exact (min_eq_right (le_of_lt h)).symm
  · exact (min_eq_left (not_lt.mp h)).symm

/-- Refutation of C3 as stated: at the default configuration, attempt 37,
the returned delay is `math.MinInt64` and differs from
`min(baseDelay * multiplier ^ attempt, maxDelay)`. -/
theorem exponential_delay_overflow_breaks_min :
    ExponentialBackoff.Delay ⟨100000000, 2, 10000000000, false⟩ 37 0 = i64min ∧
    ¬ ((ExponentialBackoff.Delay ⟨100000000, 2, 10000000000, false⟩ 37 0 : ℚ)
        = min ((100000000 : ℚ) * 2 ^ 37) 10000000000) := by
  refine ⟨default_exponential_delay_at_37, ?_⟩
  rw [default_exponential_delay_at_37]
  norm_num [i64min]

/-- Concrete instance of amended C3: the default exponential parameters at
attempt 5 yield the un-capped truncated product. -/
theorem exponential_delay_min_in_int64_range_witness :
    ExponentialBackoff.Delay ⟨100000000, 2, 10000000000, false⟩ 5 0
      = min (f64trunc ((100000000 : ℚ) * 2 ^ 5)) 10000000000 :=
  exponential_delay_min_in_int64_range ⟨100000000, 2, 10000000000, false⟩ rfl 5 0
    (by norm_num [f64trunc, i64min]) (by norm_num [f64trunc, i64max])

/-- Claim C4 (amended): for both strategies, every configuration
satisfying the data model (positive delays and multiplier), and every
attempt number, `Delay` never returns a negative duration provided that,
on the exponential path with jitter disabled, the truncated scaled
product fits in `int64`; and whenever the jittered value would be
negative it is clamped (unconditionally) to the un-jittered base delay
of the strategy. -/
theorem delay_nonneg_in_range_and_clamped (s : BackoffStrategy) (count : Nat)
    (hv : strategyValid s)
    (hrange : ∀ e, s = .exponential e → e.jitter = false →
      f64trunc ((e.baseDelay : ℚ) * e.multiplier ^ count) ≤ i64max) :
    (∀ r : ℚ, 0 ≤ s.Delay count r) ∧
    (∀ r : ℚ, s.jitterEnabled = true →
      f64toInt64 ((s.preDelay count : ℚ) + jitter25 r (s.preDelay count : ℚ)) < 0 →
      s.Delay count r = s.baseOf) := by
  have hclamp : ∀ base v : ℤ, 0 < base → 0 ≤ if v < 0 then base else v := by
    intro base v hb
    split_ifs with h
    · exact le_of_lt hb
    · exact not_lt.mp h
  cases s with
  | exponential e =>
    obtain ⟨hb, hm, hx⟩ := hv
    constructor
    · intro r
      show 0 ≤ ExponentialBackoff.Delay e count r
      simp only [ExponentialBackoff.Delay]
      cases hj : e.jitter with
      | false =>
        simp only [Bool.false_eq_true, if_false]
        have hprod : (0 : ℚ) ≤ (e.baseDelay : ℚ) * e.multiplier ^ count :=
          le_of_lt (mul_pos (by exact_mod_cast hb) (pow_pos hm count))
        have ht0 : 0 ≤ f64trunc ((e.baseDelay : ℚ) * e.multiplier ^ count) :=
          f64trunc_nonneg _ hprod
        have heq := f64toInt64_in_range ((e.baseDelay : ℚ) * e.multiplier ^ count)
          (le_trans (by norm_num [i64min]) ht0) (hrange e rfl hj)
        rw [heq]
        split_ifs with h
        · exact le_of_lt hx
        · exact ht0
      | true => simp only [if_true]; exact hclamp _ _ hb
    · intro r hj hneg
      simp only [BackoffStrategy.jitterEnabled] at hj
      simp only [BackoffStrategy.preDelay] at hneg
      show ExponentialBackoff.Delay e count r = e.baseDelay
      simp only [ExponentialBackoff.Delay, hj, if_true]
      rw [if_pos hneg]
  | fixed f =>
    have hd : 0 < f.delay := hv
    constructor
    · intro r
      show 0 ≤ FixedBackoff.Delay f count r
      simp only [FixedBackoff.Delay]
      cases hj : f.jitter with
      | false => simp only [Bool.false_eq_true, if_false]; exact le_of_lt hd
      | true => simp only [if_true]; exact hclamp _ _ hd
    · intro r hj hneg
      simp only [BackoffStrategy.jitterEnabled] at hj
      simp only [BackoffStrategy.preDelay] at hneg
      show FixedBackoff.Delay f count r = f.delay
      simp only [FixedBackoff.Delay, hj, if_true]
      rw [if_pos hneg]

/-- Refutation of C4 as stated: at the default (hence valid) exponential
configuration without jitter, attempt 37 returns a negative duration. -/
theorem exponential_delay_overflow_negative :
    ExponentialBackoff.Delay ⟨100000000, 2, 10000000000, false⟩ 37 0 < 0 := by
  rw [default_exponential_delay_at_37]
  norm_num [i64min]

/-- Concrete instance of amended C4: a jittered fixed one-second backoff
is nonnegative. -/
theorem delay_nonneg_in_range_and_clamped_witness :
    0 ≤ (BackoffStrategy.fixed ⟨1000000000, true⟩).Delay 1 (1/2) :=
  (delay_nonneg_in_range_and_clamped (.fixed ⟨1000000000, true⟩) 1
    (by norm_num [strategyValid]) (fun e he _ => nomatch he)).1 (1/2)

/-- Claim C7: `shouldRetryError(err)` is true iff a retry configuration is
present, `err` is non-nil, and the lower-cased error text contains at
least one configured error signature as a substring; a nil error or a
missing configuration yields false. -/
theorem should_retry_error_iff (cfg : Option RetryConfig) (err : Option Err) :
    shouldRetryError cfg err = true ↔
      ∃ c e, cfg = some c ∧ err = some e ∧
        ∃ sig ∈ c.retryableError, strContainsSub (strToLower e) sig = true := by
  cases cfg with
  | none => simp [shouldRetryError]
  | some c =>
    cases err with
    | none => simp [shouldRetryError]
    | some e => simp [shouldRetryError, List.any_eq_true]

/-- Claim C8: after `Build()` no field of a `RetryConfig` is left unset:
a nonpositive `maxRetries` has become 3, a nil backoff strategy the
default exponential backoff (100ms base, multiplier 2, 10s cap), an empty
status-code collection the five default codes, and an empty signature
collection the four default signatures — for every combination of builder
inputs. -/
theorem retry_config_build_fills_defaults (c : RetryConfig) :
    (0 < (retryConfigBuilderBuild c).maxRetries ∧
      (retryConfigBuilderBuild c).backoffStrategy ≠ none ∧
      (retryConfigBuilderBuild c).retryableStatusCodes ≠ [] ∧
      (retryConfigBuilderBuild c).retryableError ≠ []) ∧
    (c.maxRetries ≤ 0 → (retryConfigBuilderBuild c).maxRetries = 3) ∧
    (c.backoffStrategy = none → (retryConfigBuilderBuild c).backoffStrategy
      = some (.exponential ⟨100000000, 2, 10000000000, false⟩)) ∧
    (c.retryableStatusCodes = [] → (retryConfigBuilderBuild c).retryableStatusCodes
      = [429, 500, 502, 503, 504]) ∧
    (c.retryableError = [] → (retryConfigBuilderBuild c).retryableError
      = ["connection refused", "timeout", "temporary failure", "no such host"]) := by
  simp only [retryConfigBuilderBuild]
  split_ifs with h1 h2 h3 h4 <;>
    simp_all [DefaultMaxRetries, DefaultRetryableStatusCodes, DefaultRetryableErrors,
      exponentialBackoffBuilderBuild, newExponentialBackoff,
      DefaultExponentialBaseDelay, DefaultExponentialMultiplier,
      DefaultExponentialMaxDelay]

/-- Concrete instance of C8: building from the zero-valued builder state
yields the default retry count. -/
theorem retry_config_build_fills_defaults_witness :
    (retryConfigBuilderBuild newRetryConfig).maxRetries = 3 :=
  (retry_config_build_fills_defaults newRetryConfig).2.1 (by decide)

/-- Middleware chains applied to a concatenation run the first part first
and feed its result to the second part. -/
theorem applyMiddlewares_append (l1 l2 : List Middleware) (req : Request) :
    applyMiddlewares (l1 ++ l2) req =
      match applyMiddlewares l1 req with
      | .error e => .error e
      | .ok req2 => applyMiddlewares l2 req2 := by
  induction l1 generalizing req with
  | nil => simp [applyMiddlewares]
  | cons m rest ih =>
    simp only [List.cons_append, applyMiddlewares]
    cases m req with
    | error e => rfl
    | ok req2 => exact ih req2

/-- Claim C9: middleware runs on the freshly built request strictly in
registration order; the first middleware to fail short-circuits the
remaining middleware and the transport exchange, and its error (wrapped
as `middleware error: …`) becomes the attempt's outcome for every
transport. -/
theorem middleware_error_short_circuits (c : ClientS) (ms1 ms2 : List Middleware)
    (m : Middleware) (req1 : Request) (e : Err) (url method : String)
    (body : Option String)
    (hmw : c.middlewares = ms1 ++ m :: ms2)
    (h1 : applyMiddlewares ms1 ⟨c.buildURL url, method, body⟩ = .ok req1)
    (h2 : m req1 = .error e) :
    ∀ transport : Request → Except Err HTTPResp,
      c.executeOnce transport url method body = .err ("middleware error: " ++ e) := by
  intro transport
  simp only [ClientS.executeOnce, hmw]
  rw [applyMiddlewares_append, h1]
  simp only [applyMiddlewares, h2]

/-- Concrete instance of C9: the failing second middleware of three aborts
the attempt with its own error even though the transport would answer. -/
theorem middleware_error_short_circuits_witness :
    (ClientS.mk "" [fun req => .ok req, fun _ => .error "abort", fun req => .ok req]
        none).executeOnce
      (fun _ => .ok ⟨200⟩) "u" "GET" none = .err ("middleware error: " ++ "abort") :=
  middleware_error_short_circuits _ [fun req => .ok req] [fun req => .ok req]
    (fun _ => .error "abort") ⟨"u", "GET", none⟩ "abort" "u" "GET" none rfl
    (by simp [applyMiddlewares, ClientS.buildURL]) rfl (fun _ => .ok ⟨200⟩)

end Reqwest
